import Mathlib

/-!
Shallow embedding of the collaborative-notepad synchronization core:
the document store (`getNotepad`, `updateNotepad`), the socket handlers
(`joinNotepad`, `contentChange`, `disconnect`), the HTTP routes
(`authRoute`, `getNotepadRoute`) and the client-side authentication and
save path (`handleAuthResponse`, `saveContent`).

Machine integers do not occur; timestamps are modelled as abstract `Nat`
instants supplied by the environment. The sqlite layer is modelled as an
association list of rows plus a boolean availability oracle: a rejected
`db.run` callback corresponds to the oracle being `false`.
-/

namespace Nyobadoang

abbrev DocId := String

abbrev ConnId := String

/-- One row of the `notepads` table: content, `last_editor`, `updated_at`. -/
structure Notepad where
  content : String
  lastEditor : Option String
  updatedAt : Nat
  deriving DecidableEq, Repr

/-- The `notepads` table, as an association list from id to row. -/
abbrev Store := List (DocId × Notepad)

/-- `getNotepad`: `SELECT * FROM notepads WHERE id = ?` (first matching row). -/
def getNotepad : Store → DocId → Option Notepad
  | [], _ => none
  | e :: t, i => if e.1 = i then some e.2 else getNotepad t i

/-- The row-level effect of
`UPDATE notepads SET content = ?, updated_at = CURRENT_TIMESTAMP, last_editor = ? WHERE id = ?`:
every row whose id matches is overwritten; a match of zero rows leaves the
table unchanged and is not an error. -/
def updateNotepadRows (store : Store) (notepadId content editor : String) (now : Nat) : Store :=
  store.map fun e => if e.1 = notepadId then (e.1, ⟨content, some editor, now⟩) else e

/-- `updateNotepad`: runs the UPDATE; the promise rejects exactly when the
storage layer errors (`dbOk = false`), independently of how many rows matched. -/
def updateNotepad (dbOk : Bool) (store : Store) (notepadId content editor : String)
    (now : Nat) : Except Unit Store :=
  if dbOk then .ok (updateNotepadRows store notepadId content editor now) else .error ()

/-- Payload of the `content-update` outbound event. -/
structure ContentUpdate where
  content : String
  editor : String
  timestamp : Nat
  deriving DecidableEq, Repr

/-- Observable socket-layer effects of the `content-change` handler.
`emitToRoomExceptSender` is `socket.to(room).emit(event, payload)`, which
reaches every member of the room except the sending socket; `ackReply` would
be an invocation of the acknowledgment callback supplied with the event. -/
inductive SEffect
  | emitToRoomExceptSender (room : DocId) (sender : ConnId) (event : String)
      (payload : ContentUpdate)
  | ackReply (success : Bool)
  deriving DecidableEq, Repr

/-- The `content-change` handler: destructures `{notepadId, content, username}`,
awaits `updateNotepad`, and on success emits `content-update` to the other room
members; on failure it only logs. The handler is declared with the single
parameter `data`, so it never invokes any acknowledgment callback: no
`ackReply` effect is ever produced. Returns the new store and the effects. -/
def contentChange (dbOk : Bool) (now : Nat) (store : Store) (senderId : ConnId)
    (notepadId content username : String) : Store × List SEffect :=
  match updateNotepad dbOk store notepadId content username now with
  | .ok store1 =>
      (store1, [.emitToRoomExceptSender notepadId senderId "content-update"
        ⟨content, username, now⟩])
  | .error _ => (store, [])

/-- Delivery semantics of `socket.to(room).emit`: all sockets currently joined
to the room except the sender. -/
def recipientsOf (roomMembers : Finset ConnId) (sender : ConnId) : Finset ConnId :=
  roomMembers.erase sender

/-! ### Presence tracker (`activeUsers`) -/

/-- Key lookup in the `activeUsers` object (first matching binding). -/
def lookupRoom : List (DocId × Finset ConnId) → DocId → Option (Finset ConnId)
  | [], _ => none
  | e :: t, d => if e.1 = d then some e.2 else lookupRoom t d

/-- `activeUsers[d] = s`: overwrite the first binding of `d`, or append one. -/
def setRoom : List (DocId × Finset ConnId) → DocId → Finset ConnId →
    List (DocId × Finset ConnId)
  | [], d, s => [(d, s)]
  | e :: t, d, s => if e.1 = d then (d, s) :: t else e :: setRoom t d s

/-- The global `activeUsers` map: notepad id to set of connected socket ids. -/
structure PresenceState where
  rooms : List (DocId × Finset ConnId)
  deriving DecidableEq

/-- The `join-notepad` handler: creates the room's set when absent, adds the
socket id, and broadcasts the new `active-users` count (member-set size) to
the whole room, joiner included. Returns the new state and the count. -/
def joinNotepad (st : PresenceState) (notepadId : DocId) (socketId : ConnId) :
    PresenceState × Nat :=
  let room := (lookupRoom st.rooms notepadId).getD ∅
  let room1 := insert socketId room
  (⟨setRoom st.rooms notepadId room1⟩, room1.card)

/-- The loop body of the `disconnect` handler over the bindings of
`activeUsers`: for each room containing the socket, delete the socket, emit
`active-users` with the shrunken size, and delete the room binding when the
set became empty. Returns the surviving bindings and the emitted
`(room, count)` broadcasts in iteration order. -/
def disconnectRooms (socketId : ConnId) :
    List (DocId × Finset ConnId) → List (DocId × Finset ConnId) × List (DocId × Nat)
  | [] => ([], [])
  | e :: t =>
      if socketId ∈ e.2 then
        let s1 := e.2.erase socketId
        let r := disconnectRooms socketId t
        (if s1.card = 0 then r.1 else (e.1, s1) :: r.1, (e.1, s1.card) :: r.2)
      else
        let r := disconnectRooms socketId t
        (e :: r.1, r.2)

/-- The `disconnect` handler: scans every room for the socket id. -/
def disconnect (st : PresenceState) (socketId : ConnId) :
    PresenceState × List (DocId × Nat) :=
  let r := disconnectRooms socketId st.rooms
  (⟨r.1⟩, r.2)

/-! ### HTTP routes -/

/-- One row of the `users` table. -/
structure UserRow where
  notepadId : DocId
  username : String
  passwordHash : String
  isAlternate : Bool
  deriving DecidableEq, Repr

/-- `SELECT * FROM users WHERE notepad_id = ? AND username = ?` (first match). -/
def findUser : List UserRow → DocId → String → Option UserRow
  | [], _, _ => none
  | r :: t, i, u => if r.notepadId = i ∧ r.username = u then some r else findUser t i u

/-- Result shape of `verifyUser`. -/
structure VerifyResult where
  valid : Bool
  isAlternate : Bool
  username : Option String
  deriving DecidableEq, Repr

/-- `verifyUser`: no row resolves `{valid: false, isAlternate: false}`;
otherwise `bcrypt.compare` (modelled by the oracle `compare`) decides
validity. -/
def verifyUser (compare : String → String → Bool) (users : List UserRow)
    (notepadId username password : String) : VerifyResult :=
  match findUser users notepadId username with
  | none => ⟨false, false, none⟩
  | some row => ⟨compare password row.passwordHash, row.isAlternate, some row.username⟩

/-- JSON reply of `POST /api/notepad/:id/auth` together with its HTTP status. -/
structure AuthResponse where
  status : Nat
  success : Bool
  blank : Bool
  isAlternate : Option Bool
  username : Option String
  error : Option String
  deriving DecidableEq, Repr

/-- Database interactions a route performs, in order. -/
inductive DbCall
  | getN (id : DocId)
  | verify (id username : String)
  | fetchFeedback (id : DocId)
  | fetchFiles (id : DocId)
  deriving DecidableEq, Repr

/-- `POST /api/notepad/:id/auth`: 404 when the notepad does not exist (and no
credential check runs); otherwise `verifyUser` decides between the
authenticated reply and the 200 `{success: true, blank: true}` reply. -/
def authRoute (compare : String → String → Bool) (store : Store) (users : List UserRow)
    (id username password : String) : AuthResponse × List DbCall :=
  match getNotepad store id with
  | none => (⟨404, false, false, none, none, some "Notepad not found"⟩, [.getN id])
  | some _ =>
      let r := verifyUser compare users id username password
      if r.valid then
        (⟨200, true, false, some r.isAlternate, r.username, none⟩, [.getN id, .verify id username])
      else
        (⟨200, true, true, none, none, none⟩, [.getN id, .verify id username])

/-- JSON reply of `GET /api/notepad/:id` together with its HTTP status. -/
structure GetResponse where
  status : Nat
  success : Bool
  notepad : Option Notepad
  error : Option String
  deriving DecidableEq, Repr

/-- `GET /api/notepad/:id`: 404 when the notepad does not exist (feedback and
files are then never fetched); otherwise the notepad row is returned. -/
def getNotepadRoute (store : Store) (id : DocId) : GetResponse × List DbCall :=
  match getNotepad store id with
  | none => (⟨404, false, none, some "Notepad not found"⟩, [.getN id])
  | some np => (⟨200, true, some np, none⟩, [.getN id, .fetchFeedback id, .fetchFiles id])

/-! ### Client (notepad page) -/

/-- Client flags relevant to saving: `isAuthenticated`, `isBlankMode`,
whether `initializeSocket` ran (so `socket` is non-null), and
`currentUsername`. -/
structure ClientAuthState where
  isAuthenticated : Bool
  isBlankMode : Bool
  socketConnected : Bool
  currentUsername : String
  deriving DecidableEq, Repr

/-- The client's handling of the auth response: on `{success, blank}` it
enters blank mode and never initializes the socket; on a fully successful
reply it records the username, connects and joins; otherwise it shows an
error and stays unauthenticated. -/
def handleAuthResponse (resp : AuthResponse) : ClientAuthState :=
  if resp.success then
    if resp.blank then ⟨false, true, false, ""⟩
    else ⟨true, false, true, resp.username.getD ""⟩
  else ⟨false, false, false, ""⟩

/-- A socket message sent by the client; `hasAckCallback` records that a
third, callback argument was passed to `socket.emit`. -/
structure ClientMessage where
  event : String
  notepadId : DocId
  content : String
  username : String
  hasAckCallback : Bool
  deriving DecidableEq, Repr

/-- The client's `saveContent`: guarded by `socket && !isBlankMode`; when it
fires it emits `content-change` with an acknowledgment callback that expects
a `{success}` response. -/
def saveContent (st : ClientAuthState) (notepadId content : String) : List ClientMessage :=
  if st.socketConnected && !st.isBlankMode then
    [⟨"content-change", notepadId, content, st.currentUsername, true⟩]
  else []

/-! ### Operation sequences over the presence tracker -/

/-- A presence operation on one fixed document: a `join-notepad` event or a
transport `disconnect`. -/
inductive POp
  | join (c : ConnId)
  | leave (c : ConnId)
  deriving DecidableEq, Repr

/-- The set of currently-joined, not-yet-left connections after a sequence of
operations, starting from `s`: the specification-level presence set. -/
def specActive : Finset ConnId → List POp → Finset ConnId
  | s, [] => s
  | s, .join c :: t => specActive (insert c s) t
  | s, .leave c :: t => specActive (s.erase c) t

/-- Run one presence operation for document `d` through the corresponding
socket handler, collecting the `active-users` counts it broadcasts. -/
def applyOp (d : DocId) (st : PresenceState) : POp → PresenceState × List Nat
  | .join c => ((joinNotepad st d c).1, [(joinNotepad st d c).2])
  | .leave c => ((disconnect st c).1, (disconnect st c).2.map Prod.snd)

/-- Run a sequence of presence operations for document `d`. -/
def runOps (d : DocId) (st : PresenceState) : List POp → PresenceState
  | [] => st
  | op :: t => runOps d (applyOp d st op).1 t

/-- Canonical single-document presence state: no binding at all when the
presence set is empty, one binding otherwise. -/
def mkState (d : DocId) (s : Finset ConnId) : PresenceState :=
  ⟨if s = ∅ then [] else [(d, s)]⟩

/-- A presence operation naming its document, for multi-room runs. -/
inductive GOp
  | gjoin (d : DocId) (c : ConnId)
  | gdisc (c : ConnId)
  deriving DecidableEq, Repr

/-- One multi-room step through the socket handlers. -/
def stepG (st : PresenceState) : GOp → PresenceState
  | .gjoin d c => (joinNotepad st d c).1
  | .gdisc c => (disconnect st c).1

/-- Run a sequence of multi-room presence operations. -/
def runG (st : PresenceState) : List GOp → PresenceState
  | [] => st
  | op :: t => runG (stepG st op) t

/-- Each connection id lies in the set of at most one room binding. -/
def oneRoomPerConn (st : PresenceState) : Prop :=
  st.rooms.Pairwise fun a b => a.1 ≠ b.1 → ∀ x ∈ a.2, x ∉ b.2

/-! ### Store lemmas -/

theorem updateNotepadRows_nil (d c u : String) (t : Nat) :
    updateNotepadRows [] d c u t = [] := rfl

theorem updateNotepadRows_cons (e : DocId × Notepad) (tl : Store) (d c u : String) (t : Nat) :
    updateNotepadRows (e :: tl) d c u t =
      (if e.1 = d then (e.1, (⟨c, some u, t⟩ : Notepad)) else e) ::
        updateNotepadRows tl d c u t := by
  simp [updateNotepadRows]

theorem getNotepad_updateNotepadRows (store : Store) (d d1 c u : String) (t : Nat) :
    getNotepad (updateNotepadRows store d c u t) d1 =
      if d1 = d then (getNotepad store d).map (fun _ => (⟨c, some u, t⟩ : Notepad))
      else getNotepad store d1 := by
  induction store with
  | nil => by_cases hd : d1 = d <;> simp [updateNotepadRows_nil, getNotepad, hd]
  | cons e tl ih =>
      rw [updateNotepadRows_cons]
      by_cases he : e.1 = d
      · by_cases hd : d1 = d
        · subst hd
          simp [getNotepad, he, ih]
        · have hk : d ≠ d1 := fun h => hd h.symm
          simp [getNotepad, he, hk, hd, ih]
      · by_cases hd : d1 = d
        · subst hd
          simp [getNotepad, he, ih]
        · by_cases hk : e.1 = d1
          · simp [getNotepad, he, hk, hd]
          · simp [getNotepad, he, hk, hd, ih]

theorem updateNotepadRows_of_absent (store : Store) (d c u : String) (t : Nat)
    (h : getNotepad store d = none) :
    updateNotepadRows store d c u t = store := by
  induction store with
  | nil => rfl
  | cons e tl ih =>
      rw [updateNotepadRows_cons]
      by_cases he : e.1 = d
      · simp [getNotepad, he] at h
      · simp only [getNotepad, he, if_neg he, ite_false] at h ⊢
        rw [ih h]

/-! ### Presence-map lemmas -/

theorem lookupRoom_setRoom (rs : List (DocId × Finset ConnId)) (d d1 : DocId)
    (s : Finset ConnId) :
    lookupRoom (setRoom rs d s) d1 = if d1 = d then some s else lookupRoom rs d1 := by
  induction rs with
  | nil =>
      by_cases hd : d1 = d
      · subst hd; simp [setRoom, lookupRoom]
      · have hk : d ≠ d1 := fun h => hd h.symm
        simp [setRoom, lookupRoom, hd, hk]
  | cons e tl ih =>
      by_cases he : e.1 = d
      · by_cases hd : d1 = d
        · subst hd; simp [setRoom, lookupRoom, he]
        · have hk : d ≠ d1 := fun h => hd h.symm
          have hk1 : e.1 ≠ d1 := by rw [he]; exact hk
          simp [setRoom, lookupRoom, he, hd, hk, hk1]
      · by_cases hk : e.1 = d1
        · have hd : d1 ≠ d := by rw [← hk]; exact he
          simp [setRoom, lookupRoom, he, hk, hd]
        · simp [setRoom, lookupRoom, he, hk, ih]

theorem setRoom_setRoom (rs : List (DocId × Finset ConnId)) (d : DocId)
    (s s1 : Finset ConnId) :
    setRoom (setRoom rs d s) d s1 = setRoom rs d s1 := by
  induction rs with
  | nil => simp [setRoom]
  | cons e tl ih =>
      by_cases he : e.1 = d
      · simp [setRoom, he]
      · simp [setRoom, he, ih]

theorem mem_setRoom (rs : List (DocId × Finset ConnId)) (d d1 : DocId)
    (s s1 : Finset ConnId) :
    (d1, s1) ∈ setRoom rs d s → (d1 = d ∧ s1 = s) ∨ (d1, s1) ∈ rs := by
  induction rs with
  | nil =>
      intro h
      simp [setRoom] at h
      exact Or.inl h
  | cons e tl ih =>
      intro h
      by_cases he : e.1 = d
      · rw [setRoom, if_pos he] at h
        rcases List.mem_cons.mp h with h | h
        · exact Or.inl ⟨congrArg Prod.fst h, congrArg Prod.snd h⟩
        · exact Or.inr (List.mem_cons_of_mem _ h)
      · rw [setRoom, if_neg he] at h
        rcases List.mem_cons.mp h with h | h
        · refine Or.inr ?_
          rw [h]
          exact List.mem_cons_self _ _
        · rcases ih h with h1 | h1
          · exact Or.inl h1
          · exact Or.inr (List.mem_cons_of_mem _ h1)

theorem mem_of_lookupRoom (rs : List (DocId × Finset ConnId)) (d : DocId)
    (s : Finset ConnId) :
    lookupRoom rs d = some s → (d, s) ∈ rs := by
  induction rs with
  | nil =>
      intro h
      simp [lookupRoom] at h
  | cons e tl ih =>
      intro h
      by_cases he : e.1 = d
      · rw [lookupRoom, if_pos he] at h
        have hs : e.2 = s := Option.some.inj h
        rw [← he, ← hs]
        exact List.mem_cons_self _ _
      · rw [lookupRoom, if_neg he] at h
        exact List.mem_cons_of_mem _ (ih h)

theorem mem_disconnectRooms (c1 : ConnId) (rs : List (DocId × Finset ConnId))
    (d : DocId) (s : Finset ConnId) :
    (d, s) ∈ (disconnectRooms c1 rs).1 → ∃ s0, (d, s0) ∈ rs ∧ s ⊆ s0 := by
  induction rs with
  | nil =>
      intro h
      simp [disconnectRooms] at h
  | cons e tl ih =>
      intro h
      by_cases hc : c1 ∈ e.2
      · rw [disconnectRooms] at h
        simp only [hc, if_pos rfl] at h
        by_cases hz : (e.2.erase c1).card = 0
        · rw [if_pos hz] at h
          obtain ⟨s0, hs0, hsub⟩ := ih h
          exact ⟨s0, List.mem_cons_of_mem _ hs0, hsub⟩
        · rw [if_neg hz] at h
          rcases List.mem_cons.mp h with h | h
          · have hd1 : d = e.1 := congrArg Prod.fst h
            have hs1 : s = e.2.erase c1 := congrArg Prod.snd h
            refine ⟨e.2, ?_, ?_⟩
            · rw [hd1]
              exact List.mem_cons_self _ _
            · rw [hs1]
              exact Finset.erase_subset _ _
          · obtain ⟨s0, hs0, hsub⟩ := ih h
            exact ⟨s0, List.mem_cons_of_mem _ hs0, hsub⟩
      · rw [disconnectRooms] at h
        simp only [hc, ite_false] at h
        rcases List.mem_cons.mp h with h | h
        · refine ⟨s, ?_, Finset.Subset.refl s⟩
          rw [h]
          exact List.mem_cons_self _ _
        · obtain ⟨s0, hs0, hsub⟩ := ih h
          exact ⟨s0, List.mem_cons_of_mem _ hs0, hsub⟩

/-! ### Single-document presence runs -/

theorem joinNotepad_mkState (d : DocId) (s : Finset ConnId) (c : ConnId) :
    joinNotepad (mkState d s) d c = (mkState d (insert c s), (insert c s).card) := by
  by_cases h : s = ∅
  · subst h
    simp [joinNotepad, mkState, lookupRoom, setRoom, Finset.insert_ne_empty]
  · simp [joinNotepad, mkState, lookupRoom, setRoom, h, Finset.insert_ne_empty]

theorem disconnect_mkState (d : DocId) (s : Finset ConnId) (c : ConnId) :
    disconnect (mkState d s) c =
      (mkState d (s.erase c), if c ∈ s then [(d, (s.erase c).card)] else []) := by
  by_cases h : s = ∅
  · subst h
    simp [disconnect, disconnectRooms, mkState]
  · by_cases hc : c ∈ s
    · by_cases hz : s.erase c = ∅
      · simp [disconnect, disconnectRooms, mkState, h, hc, hz, Finset.card_eq_zero]
      · have hcd : ¬s.card - 1 = 0 := by
          rw [← Finset.card_erase_of_mem hc]
          exact fun h0 => hz (Finset.card_eq_zero.mp h0)
        simp [disconnect, disconnectRooms, mkState, h, hc, hz, hcd]
    · simp [disconnect, disconnectRooms, mkState, h, hc, Finset.erase_eq_of_not_mem hc]

theorem applyOp_mkState (d : DocId) (s : Finset ConnId) (op : POp) :
    applyOp d (mkState d s) op =
      (mkState d (match op with | .join c => insert c s | .leave c => s.erase c),
       match op with
       | .join c => [(insert c s).card]
       | .leave c => if c ∈ s then [(s.erase c).card] else []) := by
  cases op with
  | join c => simp [applyOp, joinNotepad_mkState]
  | leave c =>
      by_cases hc : c ∈ s <;> simp [applyOp, disconnect_mkState, hc]

theorem runOps_mkState (d : DocId) (ops : List POp) :
    ∀ s : Finset ConnId, runOps d (mkState d s) ops = mkState d (specActive s ops) := by
  induction ops with
  | nil => intro s; simp [runOps, specActive]
  | cons op t ih =>
      intro s
      cases op with
      | join c =>
          rw [runOps, applyOp_mkState]
          exact ih (insert c s)
      | leave c =>
          rw [runOps, applyOp_mkState]
          exact ih (s.erase c)

theorem mkState_empty (d : DocId) : mkState d ∅ = ⟨[]⟩ := by
  simp [mkState]

/-! ### Multi-room membership invariant -/

theorem mem_room_runG (ops : List GOp) :
    ∀ (st : PresenceState) (d : DocId) (s : Finset ConnId) (c : ConnId),
      (d, s) ∈ (runG st ops).rooms → c ∈ s →
      (∃ s0, (d, s0) ∈ st.rooms ∧ c ∈ s0) ∨ GOp.gjoin d c ∈ ops := by
  induction ops with
  | nil =>
      intro st d s c hmem hc
      exact Or.inl ⟨s, hmem, hc⟩
  | cons op t ih =>
      intro st d s c hmem hc
      rcases ih (stepG st op) d s c hmem hc with ⟨s0, hs0, hc0⟩ | hjoin
      · cases op with
        | gjoin d2 c2 =>
            rcases mem_setRoom st.rooms d2 d
                (insert c2 ((lookupRoom st.rooms d2).getD ∅)) s0 hs0 with ⟨hd, hs⟩ | hmem0
            · subst hd
              rw [hs] at hc0
              rcases Finset.mem_insert.mp hc0 with hcc | hcr
              · subst hcc
                exact Or.inr (List.mem_cons_self _ _)
              · cases hlk : lookupRoom st.rooms d with
                | none => rw [hlk] at hcr; simp at hcr
                | some r =>
                    rw [hlk] at hcr
                    exact Or.inl ⟨r, mem_of_lookupRoom st.rooms d r hlk, hcr⟩
            · exact Or.inl ⟨s0, hmem0, hc0⟩
        | gdisc c2 =>
            obtain ⟨s1, hs1, hsub⟩ := mem_disconnectRooms c2 st.rooms d s0 hs0
            exact Or.inl ⟨s1, hs1, hsub hc0⟩
      · exact Or.inr (List.mem_cons_of_mem _ hjoin)

/-! ## Claim theorems -/

/-- Claim C1: the spec requires every content-change submission to be answered
with a direct `{success: bool}` acknowledgment reflecting the persistence
outcome. The handler is declared with the single parameter `data` and never
invokes the acknowledgment callback: whatever the persistence outcome `dbOk`,
no `ackReply` effect is produced — even though the repository's own client
passes an ack callback (`hasAckCallback`) and branches on `response.success`.
The claim describes intended behavior the code does not implement. -/
theorem c1_no_ack_ever (dbOk : Bool) (now : Nat) (store : Store) (senderId : ConnId)
    (notepadId content username : String) (b : Bool) :
    SEffect.ackReply b ∉
      (contentChange dbOk now store senderId notepadId content username).2 ∧
    (saveContent ⟨true, false, true, username⟩ notepadId content).all
      (fun m => m.hasAckCallback) = true := by
  constructor
  · cases dbOk <;> simp [contentChange, updateNotepad]
  · rfl

/-- Claim C2: last-writer-wins. If a document exists and two submissions to it
persist in the order S1 then S2, the stored row afterwards carries S2's
content, S2's editor as `last_editor` and S2's timestamp, for arbitrary
timestamps (authorship order is irrelevant). -/
theorem c2_last_writer_wins (store : Store) (d : DocId) (np : Notepad)
    (h : getNotepad store d = some np) (s1 s2 : ConnId) (c1 u1 c2 u2 : String)
    (t1 t2 : Nat) :
    getNotepad (contentChange true t2
        (contentChange true t1 store s1 d c1 u1).1 s2 d c2 u2).1 d =
      some ⟨c2, some u2, t2⟩ := by
  have h1 : (contentChange true t1 store s1 d c1 u1).1 =
      updateNotepadRows store d c1 u1 t1 := rfl
  have h2 : ∀ st : Store, (contentChange true t2 st s2 d c2 u2).1 =
      updateNotepadRows st d c2 u2 t2 := fun _ => rfl
  rw [h1, h2, getNotepad_updateNotepadRows, if_pos rfl, getNotepad_updateNotepadRows,
    if_pos rfl, h]
  rfl

/-- Witness for C2 on a concrete store: "A" by alice then "B" by bob leaves
"B"/bob/t2. -/
theorem c2_last_writer_wins_witness :
    getNotepad [("doc", ⟨"", none, 0⟩)] "doc" = some ⟨"", none, 0⟩ ∧
    getNotepad (contentChange true 2
        (contentChange true 1 [("doc", ⟨"", none, 0⟩)] "s1" "doc" "A" "alice").1
        "s2" "doc" "B" "bob").1 "doc" = some ⟨"B", some "bob", 2⟩ :=
  ⟨rfl, c2_last_writer_wins [("doc", ⟨"", none, 0⟩)] "doc" ⟨"", none, 0⟩ rfl
    "s1" "s2" "A" "alice" "B" "bob" 1 2⟩

/-- Claim C3: presence accounting. For any sequence of join/leave operations
on one document starting from the empty registry, the reachable state is the
canonical one-room state over the specification-level presence set (in
particular the room binding is gone exactly when the set is empty), and the
`active-users` counts broadcast by the next operation equal the cardinality of
the presence set right after it: a join broadcasts the new cardinality, a
leave of a present member broadcasts the shrunken cardinality, and a leave of
an absent member broadcasts nothing (a no-op). -/
theorem c3_presence_accounting (d : DocId) (ops : List POp) (op : POp) :
    runOps d ⟨[]⟩ ops = mkState d (specActive ∅ ops) ∧
    (applyOp d (runOps d ⟨[]⟩ ops) op).2 =
      (match op with
       | .join c => [(insert c (specActive ∅ ops)).card]
       | .leave c =>
           if c ∈ specActive ∅ ops then [((specActive ∅ ops).erase c).card]
           else []) := by
  have h0 : runOps d ⟨[]⟩ ops = mkState d (specActive ∅ ops) := by
    rw [← mkState_empty d]
    exact runOps_mkState d ops ∅
  refine ⟨h0, ?_⟩
  rw [h0, applyOp_mkState]

/-- Claim C4: failure atomicity. When persistence fails, the handler's `catch`
branch runs: the handler returns the unchanged store and emits nothing, so no
`content-update` reaches any participant. -/
theorem c4_failure_atomicity (dbOk : Bool) (now : Nat) (store : Store)
    (senderId : ConnId) (notepadId content username : String)
    (h : dbOk = false) :
    contentChange dbOk now store senderId notepadId content username = (store, []) := by
  subst h
  rfl

/-- Witness for C4 at a concrete failing submission. -/
theorem c4_failure_atomicity_witness :
    (false = false) ∧
    contentChange false 0 [("doc", ⟨"x", none, 0⟩)] "s" "doc" "y" "alice" =
      ([("doc", ⟨"x", none, 0⟩)], []) :=
  ⟨rfl, c4_failure_atomicity false 0 [("doc", ⟨"x", none, 0⟩)] "s" "doc" "y" "alice" rfl⟩

/-- Claim C5: no self-echo. A successful submission emits exactly one
`content-update`, addressed with `socket.to`, whose delivery set is the room
membership minus the sender — the sender is never a recipient — and whose
payload carries the full new content, the editor identity and the timestamp. -/
theorem c5_no_self_echo (now : Nat) (store : Store) (senderId : ConnId)
    (notepadId content username : String) (roomMembers : Finset ConnId) :
    (contentChange true now store senderId notepadId content username).2 =
      [.emitToRoomExceptSender notepadId senderId "content-update"
        ⟨content, username, now⟩] ∧
    senderId ∉ recipientsOf roomMembers senderId ∧
    recipientsOf roomMembers senderId ⊆ roomMembers :=
  ⟨rfl, Finset.not_mem_erase _ _, Finset.erase_subset _ _⟩

/-- Claim C6 as stated is false on the code: `join-notepad` never removes the
socket from a previously joined room, so one connection that joins "doc1" and
then "doc2" with no intervening disconnect is a member of both rooms' sets. -/
theorem c6_counterexample :
    ¬ oneRoomPerConn (runG ⟨[]⟩ [GOp.gjoin "doc1" "c1", GOp.gjoin "doc2" "c1"]) := by
  intro h
  have hst : (runG ⟨[]⟩ [GOp.gjoin "doc1" "c1", GOp.gjoin "doc2" "c1"]).rooms =
      [("doc1", insert "c1" (∅ : Finset ConnId)),
       ("doc2", insert "c1" (∅ : Finset ConnId))] := by
    simp [runG, stepG, joinNotepad, lookupRoom, setRoom]
  rw [oneRoomPerConn, hst] at h
  rcases List.pairwise_cons.mp h with ⟨h1, _⟩
  have h2 := h1 ("doc2", insert "c1" (∅ : Finset ConnId)) (List.mem_cons_self _ _)
  have h3 : ("doc1" : String) ≠ "doc2" := by decide
  exact h2 h3 "c1" (Finset.mem_insert_self "c1" ∅) (Finset.mem_insert_self "c1" ∅)

/-- Claim C6 amended: when every connection only ever joins a single
documentId (which the repository's client guarantees — a notepad page joins
exactly one room), each connection identifier appears in the membership set of
at most one room at every reachable state, across any interleaving of joins
and disconnects. -/
theorem c6_one_room_per_conn (ops : List GOp)
    (h : ∀ d1 d2 c, GOp.gjoin d1 c ∈ ops → GOp.gjoin d2 c ∈ ops → d1 = d2) :
    oneRoomPerConn (runG ⟨[]⟩ ops) := by
  apply List.pairwise_of_forall_mem_list
  intro a ha b hb hne x hxa hxb
  have hja : GOp.gjoin a.1 x ∈ ops := by
    rcases mem_room_runG ops ⟨[]⟩ a.1 a.2 x ha hxa with ⟨s0, hs0, _⟩ | hj
    · simp at hs0
    · exact hj
  have hjb : GOp.gjoin b.1 x ∈ ops := by
    rcases mem_room_runG ops ⟨[]⟩ b.1 b.2 x hb hxb with ⟨s0, hs0, _⟩ | hj
    · simp at hs0
    · exact hj
  exact hne (h a.1 b.1 x hja hjb)

/-- Witness for the amended C6 on a run whose joins all target one document. -/
theorem c6_one_room_per_conn_witness :
    (∀ d1 d2 c,
        GOp.gjoin d1 c ∈ ([GOp.gjoin "doc1" "a1", GOp.gjoin "doc1" "b1"] : List GOp) →
        GOp.gjoin d2 c ∈ ([GOp.gjoin "doc1" "a1", GOp.gjoin "doc1" "b1"] : List GOp) →
        d1 = d2) ∧
    oneRoomPerConn (runG ⟨[]⟩ [GOp.gjoin "doc1" "a1", GOp.gjoin "doc1" "b1"]) := by
  have h : ∀ d1 d2 c,
      GOp.gjoin d1 c ∈ ([GOp.gjoin "doc1" "a1", GOp.gjoin "doc1" "b1"] : List GOp) →
      GOp.gjoin d2 c ∈ ([GOp.gjoin "doc1" "a1", GOp.gjoin "doc1" "b1"] : List GOp) →
      d1 = d2 := by
    intro d1 d2 c h1 h2
    simp only [List.mem_cons, List.not_mem_nil, or_false, GOp.gjoin.injEq] at h1 h2
    rcases h1 with ⟨h1, _⟩ | ⟨h1, _⟩ <;> rcases h2 with ⟨h2, _⟩ | ⟨h2, _⟩ <;>
      rw [h1, h2]
  exact ⟨h, c6_one_room_per_conn _ h⟩

/-- Claim C7: join idempotence. Rejoining with the same connection id leaves
both the membership map and the broadcast count exactly as after the first
join — the room set is a true set, not a counter. -/
theorem c7_join_idempotent (st : PresenceState) (d : DocId) (c : ConnId) :
    joinNotepad (joinNotepad st d c).1 d c = joinNotepad st d c := by
  simp [joinNotepad, lookupRoom_setRoom, setRoom_setRoom, Finset.insert_idem]

/-- Claim C8: invalid credentials are a normal branch. On an existing document
with `valid = false`, the auth route replies 200 `{success: true, blank: true}`
(not an error status); the client then enters blank mode without initializing
the socket, and its `saveContent` emits no `content-change` message at all. -/
theorem c8_invalid_credentials_blank (compare : String → String → Bool)
    (store : Store) (users : List UserRow) (id username password : String)
    (np : Notepad) (d1 c1 : String)
    (hdoc : getNotepad store id = some np)
    (hinv : (verifyUser compare users id username password).valid = false) :
    (authRoute compare store users id username password).1 =
      ⟨200, true, true, none, none, none⟩ ∧
    (handleAuthResponse
      (authRoute compare store users id username password).1).isBlankMode = true ∧
    saveContent
      (handleAuthResponse (authRoute compare store users id username password).1)
      d1 c1 = [] := by
  have hresp : (authRoute compare store users id username password).1 =
      ⟨200, true, true, none, none, none⟩ := by
    simp [authRoute, hdoc, hinv]
  refine ⟨hresp, ?_, ?_⟩
  · rw [hresp]
    rfl
  · rw [hresp]
    rfl

/-- Witness for C8: an existing document, a credential check that fails. -/
theorem c8_invalid_credentials_blank_witness :
    getNotepad [("doc", ⟨"", none, 0⟩)] "doc" = some ⟨"", none, 0⟩ ∧
    (verifyUser (fun _ _ => false) [] "doc" "sabs" "pw").valid = false ∧
    (authRoute (fun _ _ => false) [("doc", ⟨"", none, 0⟩)] [] "doc" "sabs" "pw").1 =
      ⟨200, true, true, none, none, none⟩ ∧
    (handleAuthResponse
      (authRoute (fun _ _ => false) [("doc", ⟨"", none, 0⟩)] []
        "doc" "sabs" "pw").1).isBlankMode = true ∧
    saveContent
      (handleAuthResponse
        (authRoute (fun _ _ => false) [("doc", ⟨"", none, 0⟩)] []
          "doc" "sabs" "pw").1) "doc" "hello" = [] :=
  ⟨rfl, rfl, c8_invalid_credentials_blank (fun _ _ => false)
    [("doc", ⟨"", none, 0⟩)] [] "doc" "sabs" "pw" ⟨"", none, 0⟩ "doc" "hello" rfl rfl⟩

/-- Claim C9: NotFound at the HTTP boundary. When no document row exists for
the id, both the auth route and the content-fetch route reply 404 with
`success = false`, and their only database interaction is the existence
lookup — no credential check and no feedback/files fetch happens. -/
theorem c9_notfound_404 (compare : String → String → Bool) (store : Store)
    (users : List UserRow) (id username password : String)
    (h : getNotepad store id = none) :
    authRoute compare store users id username password =
      (⟨404, false, false, none, none, some "Notepad not found"⟩, [DbCall.getN id]) ∧
    getNotepadRoute store id =
      (⟨404, false, none, some "Notepad not found"⟩, [DbCall.getN id]) := by
  constructor
  · simp [authRoute, h]
  · simp [getNotepadRoute, h]

/-- Witness for C9 on the empty store. -/
theorem c9_notfound_404_witness :
    getNotepad [] "missing" = none ∧
    authRoute (fun _ _ => true) [] [] "missing" "u" "p" =
      (⟨404, false, false, none, none, some "Notepad not found"⟩,
        [DbCall.getN "missing"]) ∧
    getNotepadRoute [] "missing" =
      (⟨404, false, none, some "Notepad not found"⟩, [DbCall.getN "missing"]) :=
  ⟨rfl, c9_notfound_404 (fun _ _ => true) [] [] "missing" "u" "p" rfl⟩

/-- Claim C10: a content-change naming a nonexistent document still takes the
success path. The UPDATE matches zero rows, which is not an error, so the
promise resolves: the handler emits the `content-update` broadcast even though
the store is left completely unchanged and nothing was persisted. -/
theorem c10_missing_doc_success_path (now : Nat) (store : Store) (senderId : ConnId)
    (notepadId content username : String)
    (h : getNotepad store notepadId = none) :
    contentChange true now store senderId notepadId content username =
      (store, [.emitToRoomExceptSender notepadId senderId "content-update"
        ⟨content, username, now⟩]) := by
  have h1 : contentChange true now store senderId notepadId content username =
      (updateNotepadRows store notepadId content username now,
        [.emitToRoomExceptSender notepadId senderId "content-update"
          ⟨content, username, now⟩]) := rfl
  rw [h1, updateNotepadRows_of_absent store notepadId content username now h]

/-- Witness for C10: submitting to "ghost" with only "other" stored. -/
theorem c10_missing_doc_success_path_witness :
    getNotepad [("other", ⟨"z", none, 0⟩)] "ghost" = none ∧
    contentChange true 5 [("other", ⟨"z", none, 0⟩)] "s" "ghost" "text" "alice" =
      ([("other", ⟨"z", none, 0⟩)],
        [.emitToRoomExceptSender "ghost" "s" "content-update" ⟨"text", "alice", 5⟩]) :=
  ⟨rfl, c10_missing_doc_success_path 5 [("other", ⟨"z", none, 0⟩)] "s"
    "ghost" "text" "alice" rfl⟩

end Nyobadoang
